import Mathlib

/-!
Verification of the deterministic scoring engine (`scoring.js`) of the
amazon-optimizer repository.

The JavaScript source is shallowly embedded:
* JS numbers are modelled by `ℚ` (all the arithmetic the claims touch is
  exact; `Math.log` is modelled by an arbitrary parameter `L : ℕ → ℚ`,
  so every theorem quantified over `L` holds for the real logarithm in
  particular).
* the JS value `Infinity` returned by `calculateUnitPrice` is modelled by
  `none : Option ℚ` (the sentinel); finite numbers by `some q`.
* absent object fields (`undefined`) are modelled by `none`.
* `Array.prototype.sort`, stable by the ECMAScript specification, is
  modelled by the stable `List.insertionSort` with the comparator
  `b.score - a.score` of the source, i.e. the relation `scoreGE`.
* the regular expressions of `QUANTITY_PATTERNS` are modelled by
  executable leftmost matchers on lowered character lists.  Greedy
  matching of the `(\d+)` group needs no backtracking for these five
  patterns, because no continuation of the digit group can consume a
  digit, so the matchers below are exact.
-/

namespace AmazonOptimizer

/-- Shipping record `{ isPrime, isFree, cost }` of the source; `cost` is
`none` when the field is absent. -/
structure Shipping where
  isPrime : Bool
  isFree : Bool
  cost : Option ℚ
deriving DecidableEq, Repr

/-- Input product record of `scoreProducts` (the documented shape
`{ title, price, rating, reviewCount, shipping, imageUrl, url, asin }`;
the inert string fields `imageUrl`/`url` are omitted since no claim and no
computation reads them). -/
structure Product where
  title : String
  price : Option ℚ
  rating : Option ℚ
  reviewCount : Option ℕ
  shipping : Option Shipping
  asin : String
deriving DecidableEq, Repr

/-- Per-dimension sub-scores, the `breakdown` object of the source. -/
structure Breakdown where
  unitPrice : ℚ
  rating : ℚ
  reviewCount : ℚ
  shipping : ℚ
  price : ℚ
  reviewSentiment : ℚ
deriving DecidableEq, Repr

/-- Enriched/scored product: the input fields plus `quantity`, `unitPrice`
(`none` models the `Infinity` sentinel), `score`, `breakdown` and the
`isBestValue` tag (an absent JS field reads as falsy, modelled `false`). -/
structure ScoredProduct where
  title : String
  price : Option ℚ
  rating : Option ℚ
  reviewCount : Option ℕ
  shipping : Option Shipping
  asin : String
  quantity : ℕ
  unitPrice : Option ℚ
  score : ℤ
  breakdown : Breakdown
  isBestValue : Bool
deriving DecidableEq, Repr

/-- Weight vector over the six scoring dimensions. -/
structure Weights where
  unitPrice : ℚ
  rating : ℚ
  reviewSentiment : ℚ
  reviewCount : ℚ
  shipping : ℚ
  price : ℚ
deriving DecidableEq, Repr

/-- `WEIGHTS_WITH_AI` of the source. -/
def WEIGHTS_WITH_AI : Weights :=
  { unitPrice := 0.30, rating := 0.20, reviewSentiment := 0.15,
    reviewCount := 0.10, shipping := 0.15, price := 0.10 }

/-- `WEIGHTS_WITHOUT_AI` of the source. -/
def WEIGHTS_WITHOUT_AI : Weights :=
  { unitPrice := 0.35, rating := 0.25, reviewSentiment := 0,
    reviewCount := 0.15, shipping := 0.15, price := 0.10 }

/-- `getWeights(hasAI)` of the source (the spread copy is identity here). -/
def getWeights (hasAI : Bool) : Weights :=
  if hasAI then WEIGHTS_WITH_AI else WEIGHTS_WITHOUT_AI

/-! ### Quantity extraction (`QUANTITY_PATTERNS` / `extractQuantity`) -/

/-- Boolean test that the first list is a leading segment of the second. -/
def leadsWith : List Char → List Char → Bool
  | [], _ => true
  | _ :: _, [] => false
  | a :: as, b :: bs => a == b && leadsWith as bs

/-- Whitespace class of the JS `\s` escape (the characters that can occur
in product titles; exotic unicode spaces are not modelled). -/
def jsSpace (c : Char) : Bool :=
  c = ' ' || c = '\t' || c = '\n' || c = '\r'

/-- Drop a (possibly empty) run of `\s*`. -/
def dropSpaces (l : List Char) : List Char :=
  l.dropWhile jsSpace

/-- Numeric value of a digit run, the model of `parseInt(match[1], 10)`. -/
def digitsVal (ds : List Char) : ℕ :=
  ds.foldl (fun n c => 10 * n + (c.toNat - 48)) 0

/-- Keyword alternatives of the first pattern
`(\d+)\s*[-–]?\s*(count|ct|pack|pk|pcs|pieces|units|ea|each|capsules|tablets|pods|sheets|rolls|bags|bars|cans|bottles)`. -/
def KEYWORDS_COUNT : List String :=
  ["count", "ct", "pack", "pk", "pcs", "pieces", "units", "ea", "each",
   "capsules", "tablets", "pods", "sheets", "rolls", "bags", "bars",
   "cans", "bottles"]

/-- Keyword alternatives of the third pattern `(\d+)\s*per\s*(box|case|pack|bag)`. -/
def KEYWORDS_PER : List String :=
  ["box", "case", "pack", "bag"]

/-- Matcher for pattern 1 anchored at the head of the (lowered) list:
`(\d+)\s*[-–]?\s*(count|ct|…)`; returns the captured number. -/
def pat1At (l : List Char) : Option ℕ :=
  let ds := l.takeWhile Char.isDigit
  if ds.isEmpty then none
  else
    let r1 := dropSpaces (l.dropWhile Char.isDigit)
    let r2 := match r1 with
      | c :: t => if c = '-' || c = '–' then t else c :: t
      | [] => []
    let r3 := dropSpaces r2
    if KEYWORDS_COUNT.any (fun k => leadsWith k.data r3) then some (digitsVal ds)
    else none

/-- Matcher for pattern 2 anchored at the head: `pack\s*of\s*(\d+)`. -/
def pat2At (l : List Char) : Option ℕ :=
  if leadsWith ("pack").data l then
    let r1 := dropSpaces (l.drop 4)
    if leadsWith ("of").data r1 then
      let r2 := dropSpaces (r1.drop 2)
      let ds := r2.takeWhile Char.isDigit
      if ds.isEmpty then none else some (digitsVal ds)
    else none
  else none

/-- Matcher for pattern 3 anchored at the head: `(\d+)\s*per\s*(box|case|pack|bag)`. -/
def pat3At (l : List Char) : Option ℕ :=
  let ds := l.takeWhile Char.isDigit
  if ds.isEmpty then none
  else
    let r1 := dropSpaces (l.dropWhile Char.isDigit)
    if leadsWith ("per").data r1 then
      let r2 := dropSpaces (r1.drop 3)
      if KEYWORDS_PER.any (fun k => leadsWith k.data r2) then some (digitsVal ds)
      else none
    else none

/-- Matcher for pattern 4 anchored at the head: `set\s*of\s*(\d+)`. -/
def pat4At (l : List Char) : Option ℕ :=
  if leadsWith ("set").data l then
    let r1 := dropSpaces (l.drop 3)
    if leadsWith ("of").data r1 then
      let r2 := dropSpaces (r1.drop 2)
      let ds := r2.takeWhile Char.isDigit
      if ds.isEmpty then none else some (digitsVal ds)
    else none
  else none

/-- Matcher for pattern 5 anchored at the head: `(\d+)\s*x\s*\d`. -/
def pat5At (l : List Char) : Option ℕ :=
  let ds := l.takeWhile Char.isDigit
  if ds.isEmpty then none
  else
    let r1 := dropSpaces (l.dropWhile Char.isDigit)
    match r1 with
    | c :: t =>
      if c = 'x' then
        match dropSpaces t with
        | d :: _ => if d.isDigit then some (digitsVal ds) else none
        | [] => none
      else none
    | [] => none

/-- Leftmost-match search: `String.prototype.match` without the `g` flag
returns the match at the smallest starting position. -/
def scanPat (f : List Char → Option ℕ) : List Char → Option ℕ
  | [] => f []
  | c :: t =>
    match f (c :: t) with
    | some n => some n
    | none => scanPat f t

/-- The ordered pattern list `QUANTITY_PATTERNS` of the source, each entry
already wrapped in its leftmost-match search. -/
def QUANTITY_PATTERNS : List (List Char → Option ℕ) :=
  [scanPat pat1At, scanPat pat2At, scanPat pat3At, scanPat pat4At, scanPat pat5At]

/-- Case folding of the `/i` flag (the pattern literals are ASCII). -/
def lowerChars (title : String) : List Char :=
  title.data.map Char.toLower

/-- Loop body of `extractQuantity`: try each pattern in order; on a match,
return the number if it lies in `(0, 10000)`, otherwise fall through to
the next pattern; return 1 when the patterns are exhausted. -/
def matchRun : List (List Char → Option ℕ) → List Char → ℕ
  | [], _ => 1
  | f :: fs, l =>
    match f l with
    | some n => if 0 < n ∧ n < 10000 then n else matchRun fs l
    | none => matchRun fs l

/-- `extractQuantity(title)` of the source for a string argument
(`if (!title) return 1` is the empty-string guard). -/
def extractQuantity (title : String) : ℕ :=
  if title = "" then 1 else matchRun QUANTITY_PATTERNS (lowerChars title)

/-! ### Unit price and shipping score -/

/-- `calculateUnitPrice(price, quantity)`: `none` models the `Infinity`
sentinel returned when the price is absent (`!price`), zero (`!price`
again) or negative (`price <= 0`); otherwise `price / Math.max(quantity, 1)`.
The result is by construction never NaN: the divisor is at least 1. -/
def calculateUnitPrice (price : Option ℚ) (quantity : ℕ) : Option ℚ :=
  match price with
  | none => none
  | some v => if v ≤ 0 then none else some (v / (max quantity 1 : ℕ))

/-- `getShippingScore(shipping)` of the source. -/
def getShippingScore (shipping : Option Shipping) : ℚ :=
  match shipping with
  | none => 25
  | some s =>
    if s.isPrime || s.isFree then 100
    else
      match s.cost with
      | some c => if c = 0 then 100 else if 0 < c then 50 else 25
      | none => 25

/-! ### The scoring pipeline (`scoreProducts`) -/

/-- First enrichment pass of `scoreProducts`: spread the product and add
`quantity` and `unitPrice` (`score`/`breakdown` are filled in later, and
the absent `isBestValue` field reads as `false`). -/
def enrichProduct (p : Product) : ScoredProduct :=
  { title := p.title, price := p.price, rating := p.rating,
    reviewCount := p.reviewCount, shipping := p.shipping, asin := p.asin,
    quantity := extractQuantity p.title,
    unitPrice := calculateUnitPrice p.price (extractQuantity p.title),
    score := 0,
    breakdown := { unitPrice := 0, rating := 0, reviewCount := 0,
                   shipping := 0, price := 0, reviewSentiment := 0 },
    isBestValue := false }

/-- `Math.max(...finitePrices.map(p => p.price), 1)`: the batch maximum
over the positive (finite) prices, floored at 1. -/
def maxPriceOf (l : List ScoredProduct) : ℚ :=
  ((l.filterMap (fun p => p.price)).filter (fun v => 0 < v)).foldr max 1

/-- `Math.max(...finiteUnitPrices.map(p => p.unitPrice), 1)`: the batch
maximum over the finite unit prices only — the `Infinity` sentinel is the
`none` case of `filterMap` and never enters the fold. -/
def maxUnitPriceOf (l : List ScoredProduct) : ℚ :=
  (l.filterMap (fun p => p.unitPrice)).foldr max 1

/-- `Math.max(...enriched.map(p => p.reviewCount || 0), 1)`. -/
def maxReviewsOf (l : List ScoredProduct) : ℕ :=
  (l.map (fun p => p.reviewCount.getD 0)).foldr max 1

/-- JS `p.reviewCount || 1` (`undefined` and `0` are falsy). -/
def jsOrOne (rc : Option ℕ) : ℕ :=
  match rc with
  | none => 1
  | some n => if n = 0 then 1 else n

/-- `hasAI = aiSentiments && Object.keys(aiSentiments).length > 0`. -/
def hasAIOf (aiSentiments : Option (List (String × ℚ))) : Bool :=
  match aiSentiments with
  | none => false
  | some l => !l.isEmpty

/-- Lookup `aiSentiments[asin]` in the sentiment map. -/
def sentiLookup (aiSentiments : Option (List (String × ℚ))) (asin : String) : Option ℚ :=
  match aiSentiments with
  | none => none
  | some l => l.lookup asin

/-- The six sub-scores of one product, given the model `L` of `Math.log`
and the batch maxima `mp`, `mu`, `mr`.  The conditional
`hasAI && aiSentiments[p.asin] ? … : 0` collapses to `getD 0` over `ℚ`
because a sentiment value of `0` is falsy and yields `0` either way. -/
def breakdownOf (L : ℕ → ℚ) (hasAI : Bool) (senti : String → Option ℚ)
    (mp mu : ℚ) (mr : ℕ) (p : ScoredProduct) : Breakdown :=
  { unitPrice := match p.unitPrice with
      | some u => (1 - u / mu) * 100
      | none => 0,
    rating := (p.rating.getD 0) / 5 * 100,
    reviewCount := if 1 < mr then L (max (jsOrOne p.reviewCount) 1) / L mr * 100 else 50,
    shipping := getShippingScore p.shipping,
    price := match p.price with
      | some v => if 0 < v then (1 - v / mp) * 100 else 0
      | none => 0,
    reviewSentiment := if hasAI then (senti p.asin).getD 0 else 0 }

/-- The weighted composite, summed in the key order of the weight object
(`unitPrice, rating, reviewSentiment, reviewCount, shipping, price`). -/
def rawScore (w : Weights) (b : Breakdown) : ℚ :=
  b.unitPrice * w.unitPrice + b.rating * w.rating +
    b.reviewSentiment * w.reviewSentiment + b.reviewCount * w.reviewCount +
    b.shipping * w.shipping + b.price * w.price

/-- Scoring pass of `scoreProducts`: fill in `breakdown`, then
`p.score = Math.round(Math.max(0, Math.min(100, sum)))`. -/
def scoreOne (L : ℕ → ℚ) (w : Weights) (hasAI : Bool) (senti : String → Option ℚ)
    (mp mu : ℚ) (mr : ℕ) (p : ScoredProduct) : ScoredProduct :=
  { p with
    score := round (max 0 (min 100 (rawScore w (breakdownOf L hasAI senti mp mu mr p)))),
    breakdown := breakdownOf L hasAI senti mp mu mr p }

/-- The enriched list of a batch. -/
def enrichedOf (ps : List Product) : List ScoredProduct :=
  ps.map enrichProduct

/-- The fully scored (still input-ordered) list of a batch. -/
def scoredList (L : ℕ → ℚ) (ps : List Product)
    (s : Option (List (String × ℚ))) : List ScoredProduct :=
  (enrichedOf ps).map
    (scoreOne L (getWeights (hasAIOf s)) (hasAIOf s) (sentiLookup s)
      (maxPriceOf (enrichedOf ps)) (maxUnitPriceOf (enrichedOf ps))
      (maxReviewsOf (enrichedOf ps)))

/-- Descending score order, the comparator `(a, b) => b.score - a.score`. -/
def scoreGE (a b : ScoredProduct) : Prop :=
  b.score ≤ a.score

instance : DecidableRel scoreGE :=
  fun a b => inferInstanceAs (Decidable (b.score ≤ a.score))

instance : IsTotal ScoredProduct scoreGE :=
  ⟨fun a b => le_total b.score a.score⟩

instance : IsTrans ScoredProduct scoreGE :=
  ⟨fun _ _ _ hab hbc => le_trans hbc hab⟩

/-- Model of `enriched.sort((a, b) => b.score - a.score)`.  ECMAScript
requires `Array.prototype.sort` to be stable; any two stable sorts under
the same consistent comparator produce the same list, so the stable
`insertionSort` is an exact model. -/
def sortByScoreDesc (l : List ScoredProduct) : List ScoredProduct :=
  List.insertionSort scoreGE l

/-- `enriched[0].isBestValue = true` on the sorted list. -/
def setBest (p : ScoredProduct) : ScoredProduct :=
  { p with isBestValue := true }

/-- Tag the head of the ranked list as the best value. -/
def tagBest : List ScoredProduct → List ScoredProduct
  | [] => []
  | h :: t => setBest h :: t

/-- `scoreProducts(products, aiSentiments)` of the source, parametrised by
the model `L` of `Math.log`. -/
def scoreProducts (L : ℕ → ℚ) (products : List Product)
    (aiSentiments : Option (List (String × ℚ))) : List ScoredProduct :=
  if products.isEmpty then []
  else tagBest (sortByScoreDesc (scoredList L products aiSentiments))

/-- `scoreProducts` as called with a possibly `null`/`undefined` products
argument: `if (!products || products.length === 0) return []`. -/
def scoreProductsJs (L : ℕ → ℚ) (products : Option (List Product))
    (aiSentiments : Option (List (String × ℚ))) : List ScoredProduct :=
  scoreProducts L (products.getD []) aiSentiments

/-! ### Fallback summary (`generateFallbackSummary`) -/

/-- Two-decimal rendering of a finite number, the model of
`Number.prototype.toFixed(2)` (round to the nearest hundredth, then print
with exactly two fraction digits). -/
def fixed2 (q : ℚ) : String :=
  let n : ℤ := round (q * 100)
  let m : ℤ := if n < 0 then -n else n
  let frac : ℤ := m % 100
  (if n < 0 then "-" else "") ++ toString (m / 100) ++ "." ++
    (if frac < 10 then "0" else "") ++ toString frac

/-- `best.unitPrice.toFixed(2)`: on the `Infinity` sentinel JS yields the
string `Infinity` without throwing. -/
def toFixed2 : Option ℚ → String
  | none => "Infinity"
  | some q => fixed2 q

/-- Decimal-style rendering of a rating in a template string; the exact
digits are immaterial to every claim, only totality matters. -/
def ratingStr (r : ℚ) : String :=
  if r.den = 1 then toString r.num else fixed2 r

/-- Rating sentence: emitted only when `best.rating >= 4.5` (an absent
rating compares false).  `toLocaleString` is modelled as plain decimal
printing (locale grouping is not modelled). -/
def ratingPart (best : ScoredProduct) : List String :=
  match best.rating with
  | none => []
  | some r =>
    if 9 / 2 ≤ r then
      ["Rated " ++ ratingStr r ++ "/5 stars with " ++
        toString (best.reviewCount.getD 0) ++ " reviews."]
    else []

/-- The `parts` array built by `generateFallbackSummary`. -/
def summaryParts (best : ScoredProduct) (rest : List ScoredProduct) : List String :=
  ["**" ++ best.title ++ "** is the top pick with a score of " ++
      toString best.score ++ "/100."]
  ++ (if 1 < best.quantity then
        ["At $" ++ toFixed2 best.unitPrice ++ " per unit (" ++
          toString best.quantity ++ "-pack), it offers strong value."]
      else [])
  ++ (if best.breakdown.shipping = 100 then ["Ships free with Prime."] else [])
  ++ ratingPart best
  ++ (match rest with
      | [] => []
      | runner :: _ =>
        ["Runner-up: " ++ runner.title ++ " (" ++ toString runner.score ++ "/100)."])

/-- `parts.join(' ')`. -/
def joinSpace : List String → String
  | [] => ""
  | [s] => s
  | s :: t :: r => s ++ " " ++ joinSpace (t :: r)

/-- `generateFallbackSummary(rankedProducts)` of the source. -/
def generateFallbackSummary (rankedProducts : List ScoredProduct) : String :=
  match rankedProducts with
  | [] => ""
  | best :: rest => joinSpace (summaryParts best rest)

/-- `generateFallbackSummary` as called with a possibly `null`/`undefined`
argument: `if (!rankedProducts || rankedProducts.length === 0) return ''`. -/
def generateFallbackSummaryJs (rankedProducts : Option (List ScoredProduct)) : String :=
  generateFallbackSummary (rankedProducts.getD [])

/-! ### Dynamically-typed view of `extractQuantity` (for the safety claim) -/

/-- A JS value as it may reach the `title` parameter. -/
inductive JsVal where
  | str (s : String)
  | num (q : ℚ)
  | nan
  | boolean (b : Bool)
  | null
  | undef
deriving DecidableEq, Repr

/-- JS truthiness of a `JsVal`. -/
def jsTruthy : JsVal → Bool
  | .str s => !(s == "")
  | .num q => !(q == 0)
  | .nan => false
  | .boolean b => b
  | .null => false
  | .undef => false

/-- `extractQuantity` on an arbitrary JS value: falsy arguments hit the
`if (!title) return 1` guard; a truthy string proceeds to the pattern
loop; any other truthy value evaluates `title.match`, which is
`undefined`, and the call throws a `TypeError`. -/
def typeErrorMsg : String :=
  "TypeError: title.match is not a function"

/-- `extractQuantity` on an arbitrary JS value: falsy arguments hit the
`if (!title) return 1` guard; a truthy string proceeds to the pattern
loop; any other truthy value evaluates `title.match`, which is
`undefined`, and the call throws a `TypeError`. -/
def extractQuantityJs (title : JsVal) : Except String ℕ :=
  if jsTruthy title then
    match title with
    | .str s => .ok (extractQuantity s)
    | _ => .error typeErrorMsg
  else .ok 1

/-- Title on which the first pattern's leftmost match is out of range. -/
def cexTitle : String := "50000 count pack of 5"

/-- Spec-level restatement of the amended claim: collect each pattern's
(leftmost) match in pattern order, keep the in-range ones, and return the
first of those, or 1 when there is none. -/
def extractQuantitySpec (title : String) : ℕ :=
  match (QUANTITY_PATTERNS.filterMap (fun f => f (lowerChars title))).filter
      (fun n => decide (0 < n ∧ n < 10000)) with
  | [] => 1
  | n :: _ => n

/-- Sample title used by concrete witnesses. -/
def samplePackTitle : String := "5 pack"

/-- Erase the best-value tag (used to compare ranked elements with their
pre-tagging versions). -/
def clearTag (p : ScoredProduct) : ScoredProduct :=
  { p with isBestValue := false }

/-- Batch maximum review count directly over the input products. -/
def maxReviewsP (ps : List Product) : ℕ :=
  (ps.map (fun p => p.reviewCount.getD 0)).foldr max 1

/-- Substring-occurrence relation on character lists. -/
def substrOf (needle hay : List Char) : Prop :=
  ∃ pre post, hay = pre ++ needle ++ post

/-- Trivial model of `Math.log` used for concrete evaluations. -/
def zeroLog : ℕ → ℚ := fun _ => 0

/-- A minimal product (every optional field absent). -/
def sampleProduct : Product :=
  { title := "", price := none, rating := none, reviewCount := none,
    shipping := none, asin := "" }

/-- The value `scoreProducts` computes for `[sampleProduct]`: sub-scores
0/0/50/25/0/0, composite `50·.15 + 25·.15 = 11.25`, rounded to 11. -/
def sampleScored : ScoredProduct :=
  { title := "", price := none, rating := none, reviewCount := none,
    shipping := none, asin := "", quantity := 1, unitPrice := none,
    score := 11,
    breakdown := { unitPrice := 0, rating := 0, reviewCount := 50,
                   shipping := 25, price := 0, reviewSentiment := 0 },
    isBestValue := true }

/-- A ranked entry with a multi-unit quantity and the sentinel unit price. -/
def sampleRanked : ScoredProduct :=
  { title := "A", price := none, rating := none, reviewCount := none,
    shipping := none, asin := "", quantity := 2, unitPrice := none,
    score := 50,
    breakdown := { unitPrice := 0, rating := 0, reviewCount := 0,
                   shipping := 0, price := 0, reviewSentiment := 0 },
    isBestValue := true }

/-! ### Helper lemmas -/

theorem one_le_foldr_max (xs : List ℚ) : 1 ≤ xs.foldr max 1 := by
  induction xs with
  | nil => exact le_refl 1
  | cons x xs ih => exact le_trans ih (le_max_right x _)

theorem le_foldr_max {a : ℚ} {xs : List ℚ} (h : a ∈ xs) (i : ℚ) :
    a ≤ xs.foldr max i := by
  induction xs with
  | nil => cases h
  | cons x xs ih =>
    rcases List.mem_cons.mp h with rfl | hmem
    · exact le_max_left a _
    · exact le_trans (ih hmem) (le_max_right x _)

theorem foldr_max_choice (xs : List ℚ) (i : ℚ) :
    xs.foldr max i = i ∨ xs.foldr max i ∈ xs := by
  induction xs with
  | nil => exact Or.inl rfl
  | cons x xs ih =>
    rcases max_choice x (xs.foldr max i) with h | h
    · exact Or.inr (by rw [List.foldr_cons, h]; exact List.mem_cons_self x xs)
    · rcases ih with h' | h'
      · exact Or.inl (by rw [List.foldr_cons, h, h'])
      · exact Or.inr (by rw [List.foldr_cons, h]; exact List.mem_cons_of_mem x h')

theorem one_le_matchRun (fs : List (List Char → Option ℕ)) (l : List Char) :
    1 ≤ matchRun fs l := by
  induction fs with
  | nil => exact le_refl 1
  | cons f fs ih =>
    rw [matchRun]
    cases hf : f l with
    | none => exact ih
    | some n =>
      show 1 ≤ if 0 < n ∧ n < 10000 then n else matchRun fs l
      by_cases hr : 0 < n ∧ n < 10000
      · rw [if_pos hr]; exact hr.1
      · rw [if_neg hr]; exact ih

theorem matchRun_lt (fs : List (List Char → Option ℕ)) (l : List Char) :
    matchRun fs l < 10000 := by
  induction fs with
  | nil => show (1:ℕ) < 10000; omega
  | cons f fs ih =>
    rw [matchRun]
    cases hf : f l with
    | none => exact ih
    | some n =>
      show (if 0 < n ∧ n < 10000 then n else matchRun fs l) < 10000
      by_cases hr : 0 < n ∧ n < 10000
      · rw [if_pos hr]; exact hr.2
      · rw [if_neg hr]; exact ih

theorem matchRun_eq_filter (fs : List (List Char → Option ℕ)) (l : List Char) :
    matchRun fs l =
      (match (fs.filterMap (fun f => f l)).filter
          (fun n => decide (0 < n ∧ n < 10000)) with
       | [] => 1
       | n :: _ => n) := by
  induction fs with
  | nil => rfl
  | cons f fs ih =>
    rw [matchRun, List.filterMap_cons]
    cases hf : f l with
    | none => exact ih
    | some n =>
      show (if 0 < n ∧ n < 10000 then n else matchRun fs l) = _
      by_cases hr : 0 < n ∧ n < 10000
      · rw [if_pos hr, List.filter_cons, if_pos (by simpa using hr)]
      · rw [if_neg hr, List.filter_cons, if_neg (by simpa using hr)]
        exact ih

/-! ### The claims -/

/-- C3: `calculateUnitPrice` returns the sentinel (`none`, the model of
`Infinity`) exactly when the price is absent, zero or negative, and
otherwise `price / max(quantity, 1)` (a genuine rational, never NaN); and
the sentinel is excluded from the batch maximum `maxUnitPriceOf`: the
maximum is at least 1, is either the floor 1 or one of the finite unit
prices (never the sentinel), and bounds every finite unit price. -/
theorem calculateUnitPrice_sentinel_spec :
    (∀ q : ℕ, calculateUnitPrice none q = none) ∧
    (∀ (v : ℚ) (q : ℕ), v ≤ 0 → calculateUnitPrice (some v) q = none) ∧
    (∀ (v : ℚ) (q : ℕ), 0 < v →
      calculateUnitPrice (some v) q = some (v / (max q 1 : ℕ))) ∧
    (∀ l : List ScoredProduct,
      1 ≤ maxUnitPriceOf l ∧
      (maxUnitPriceOf l = 1 ∨ ∃ p ∈ l, p.unitPrice = some (maxUnitPriceOf l)) ∧
      ∀ p ∈ l, ∀ u : ℚ, p.unitPrice = some u → u ≤ maxUnitPriceOf l) := by
  refine ⟨fun _ => rfl, ?_, ?_, ?_⟩
  · intro v q hv
    simp [calculateUnitPrice, hv]
  · intro v q hv
    simp [calculateUnitPrice, not_le.mpr hv]
  · intro l
    refine ⟨one_le_foldr_max _, ?_, ?_⟩
    · rcases foldr_max_choice (l.filterMap (fun p => p.unitPrice)) 1 with h | h
      · exact Or.inl h
      · rcases List.mem_filterMap.mp h with ⟨p, hp, hu⟩
        exact Or.inr ⟨p, hp, hu⟩
    · intro p hp u hu
      exact le_foldr_max (List.mem_filterMap.mpr ⟨p, hp, hu⟩) 1

theorem calculateUnitPrice_sentinel_spec_wit :
    calculateUnitPrice (some (-2)) 3 = none ∧
    calculateUnitPrice (some 6) 3 = some ((6 : ℚ) / ((max 3 1 : ℕ) : ℚ)) :=
  ⟨calculateUnitPrice_sentinel_spec.2.1 (-2) 3 (by norm_num),
   calculateUnitPrice_sentinel_spec.2.2.1 6 3 (by norm_num)⟩

/-- C6: `getWeights(false)` is the without-sentiment vector (sentiment
weight exactly 0, the other five .35/.25/.15/.15/.10 summing to 1), and
`getWeights(true)` is the with-sentiment vector (six weights summing to 1
with sentiment exactly 0.15). -/
theorem getWeights_sums :
    getWeights false = WEIGHTS_WITHOUT_AI ∧
    (getWeights false).reviewSentiment = 0 ∧
    (getWeights false).unitPrice = 0.35 ∧
    (getWeights false).rating = 0.25 ∧
    (getWeights false).reviewCount = 0.15 ∧
    (getWeights false).shipping = 0.15 ∧
    (getWeights false).price = 0.10 ∧
    (getWeights false).unitPrice + (getWeights false).rating +
      (getWeights false).reviewCount + (getWeights false).shipping +
      (getWeights false).price = 1 ∧
    getWeights true = WEIGHTS_WITH_AI ∧
    (getWeights true).reviewSentiment = 0.15 ∧
    (getWeights true).unitPrice + (getWeights true).rating +
      (getWeights true).reviewSentiment + (getWeights true).reviewCount +
      (getWeights true).shipping + (getWeights true).price = 1 := by
  refine ⟨rfl, ?_, ?_, ?_, ?_, ?_, ?_, ?_, rfl, ?_, ?_⟩ <;>
    norm_num [getWeights, WEIGHTS_WITH_AI, WEIGHTS_WITHOUT_AI]

/-- C9: the empty (or absent) product list yields the empty ranked list,
and the empty (or absent) ranked list yields the empty summary, in both
cases without any error (the functions are total). -/
theorem empty_inputs_ok (L : ℕ → ℚ) (s : Option (List (String × ℚ))) :
    scoreProducts L [] s = [] ∧ scoreProductsJs L none s = [] ∧
    generateFallbackSummary [] = "" ∧ generateFallbackSummaryJs none = "" :=
  ⟨rfl, rfl, rfl, rfl⟩

/-- C4 counterexample: on `"50000 count pack of 5"` the first pattern (the
count/pack keyword pattern, first in the fixed order) matches and captures
50000, which is out of range, yet `extractQuantity` returns 5 (from the
later `pack of N` pattern), not 1 as the claim states. -/
theorem extractQuantity_outOfRange_cex :
    scanPat pat1At (lowerChars cexTitle) = some 50000 ∧
    ¬ (50000 < 10000) ∧
    extractQuantity cexTitle = 5 ∧
    extractQuantity cexTitle ≠ 1 := by
  refine ⟨by decide, by decide, by decide, by decide⟩

/-- C4 (amended): `extractQuantity` applies the patterns in their fixed
order case-insensitively and returns the first matched number that is a
positive integer strictly below 10000; a pattern whose match is out of
range is skipped (a later pattern may still supply the result), and 1 is
returned when the title is empty or no pattern yields an in-range
number. -/
theorem extractQuantity_firstInRange (title : String) :
    extractQuantity title = extractQuantitySpec title := by
  by_cases ht : title = ""
  · subst ht; decide
  · rw [extractQuantity, if_neg ht, matchRun_eq_filter]
    rfl

/-- C5 counterexample: a truthy non-string `title` (the number 42) makes
`extractQuantity` throw a `TypeError` instead of returning normally. -/
theorem extractQuantityJs_throws_cex :
    extractQuantityJs (JsVal.num 42) = Except.error typeErrorMsg := rfl

/-- C5 (amended): for every string argument `extractQuantity` returns
normally with an integer at least 1, and every falsy argument (empty
string, 0, NaN, null, undefined, false) returns 1; but a truthy
non-string argument throws. -/
theorem extractQuantityJs_total_on_strings :
    (∀ s : String, extractQuantityJs (JsVal.str s) = Except.ok (extractQuantity s) ∧
      1 ≤ extractQuantity s) ∧
    (∀ v : JsVal, jsTruthy v = false → extractQuantityJs v = Except.ok 1) := by
  constructor
  · intro s
    constructor
    · by_cases hs : s = ""
      · subst hs; rfl
      · simp [extractQuantityJs, jsTruthy, hs]
    · rw [extractQuantity]
      by_cases hs : s = ""
      · rw [if_pos hs]
      · rw [if_neg hs]; exact one_le_matchRun _ _
  · intro v hv
    simp [extractQuantityJs, hv]

/-! ### Sorting machinery -/

theorem sorted_sortByScoreDesc (l : List ScoredProduct) :
    List.Sorted scoreGE (sortByScoreDesc l) :=
  List.sorted_insertionSort scoreGE l

theorem perm_sortByScoreDesc (l : List ScoredProduct) :
    List.Perm (sortByScoreDesc l) l :=
  List.perm_insertionSort scoreGE l

theorem filter_orderedInsert (c : ℤ) (x : ScoredProduct) (l : List ScoredProduct) :
    (List.orderedInsert scoreGE x l).filter (fun p => p.score == c) =
      (x :: l).filter (fun p => p.score == c) := by
  induction l with
  | nil => rfl
  | cons y ys ih =>
    simp only [List.orderedInsert]
    by_cases h : scoreGE x y
    · rw [if_pos h]
    · rw [if_neg h]
      have hlt : x.score < y.score := lt_of_not_le h
      by_cases hy : y.score = c
      · have hx : ¬ x.score = c := by omega
        simp [List.filter_cons, hy, hx, ih]
      · by_cases hx : x.score = c
        · simp [List.filter_cons, hy, hx, ih]
        · simp [List.filter_cons, hy, hx, ih]

theorem filter_sortByScoreDesc (c : ℤ) (l : List ScoredProduct) :
    (sortByScoreDesc l).filter (fun p => p.score == c) =
      l.filter (fun p => p.score == c) := by
  induction l with
  | nil => rfl
  | cons x xs ih =>
    simp only [sortByScoreDesc, List.insertionSort] at *
    rw [filter_orderedInsert, List.filter_cons, List.filter_cons, ih]

theorem head?_filter_eq_find? (p : ScoredProduct → Bool) (l : List ScoredProduct) :
    (l.filter p).head? = l.find? p := by
  induction l with
  | nil => rfl
  | cons x xs ih =>
    cases h : p x <;> simp [List.filter_cons, List.find?, h, ih]

/-- The head of the stable descending sort is the first-seen element of
maximal score. -/
theorem sort_head_spec (e : List ScoredProduct) (b : ScoredProduct)
    (t : List ScoredProduct) (h : sortByScoreDesc e = b :: t) :
    b ∈ e ∧ (∀ q ∈ e, q.score ≤ b.score) ∧
      e.find? (fun p => p.score == b.score) = some b := by
  have hperm := perm_sortByScoreDesc e
  rw [h] at hperm
  have hb : b ∈ e := hperm.mem_iff.mp (List.mem_cons_self b t)
  have hsorted := sorted_sortByScoreDesc e
  rw [h] at hsorted
  have hmax : ∀ q ∈ e, q.score ≤ b.score := by
    intro q hq
    rcases List.mem_cons.mp (hperm.mem_iff.mpr hq) with rfl | hqt
    · exact le_refl _
    · exact List.rel_of_sorted_cons hsorted q hqt
  refine ⟨hb, hmax, ?_⟩
  have hfil := filter_sortByScoreDesc b.score e
  rw [h, List.filter_cons] at hfil
  simp only [beq_self_eq_true, if_true] at hfil
  rw [← head?_filter_eq_find?, ← hfil]
  rfl

theorem scoreProducts_eq_tag_sort (L : ℕ → ℚ) (p₀ : Product) (ps' : List Product)
    (s : Option (List (String × ℚ))) :
    scoreProducts L (p₀ :: ps') s =
      tagBest (sortByScoreDesc (scoredList L (p₀ :: ps') s)) := by
  rw [scoreProducts, if_neg (by simp)]

theorem scoredList_length (L : ℕ → ℚ) (ps : List Product)
    (s : Option (List (String × ℚ))) :
    (scoredList L ps s).length = ps.length := by
  simp [scoredList, enrichedOf]

theorem scoredList_isBestValue_false (L : ℕ → ℚ) (ps : List Product)
    (s : Option (List (String × ℚ))) :
    ∀ q ∈ scoredList L ps s, q.isBestValue = false := by
  intro q hq
  simp only [scoredList, enrichedOf, List.map_map, List.mem_map] at hq
  obtain ⟨prod, _, rfl⟩ := hq
  rfl

theorem scoredList_score_shape (L : ℕ → ℚ) (ps : List Product)
    (s : Option (List (String × ℚ))) :
    ∀ q ∈ scoredList L ps s, ∃ x : ℚ, q.score = round (max 0 (min 100 x)) := by
  intro q hq
  simp only [scoredList, enrichedOf, List.map_map, List.mem_map] at hq
  obtain ⟨prod, _, rfl⟩ := hq
  exact ⟨_, rfl⟩

theorem mem_tagBest (l : List ScoredProduct) (p : ScoredProduct)
    (hp : p ∈ tagBest l) : ∃ q ∈ l, clearTag p = clearTag q := by
  cases l with
  | nil => cases hp
  | cons h t =>
    rcases List.mem_cons.mp hp with rfl | hmem
    · exact ⟨h, List.mem_cons_self h t, rfl⟩
    · exact ⟨p, List.mem_cons_of_mem h hmem, rfl⟩

theorem clearTag_eq_self {p : ScoredProduct} (hp : p.isBestValue = false) :
    clearTag p = p := by
  cases p
  simp only [clearTag]
  simp_all

theorem round_clamp_bounds (x : ℚ) :
    0 ≤ round (max 0 (min 100 x)) ∧ round (max 0 (min 100 x)) ≤ 100 := by
  constructor
  · rw [round_eq]
    refine Int.le_floor.mpr ?_
    have h0 : (0:ℚ) ≤ max 0 (min 100 x) := le_max_left _ _
    push_cast
    linarith
  · rw [round_eq]
    have h1 : max 0 (min 100 x) ≤ 100 :=
      max_le (by norm_num) (min_le_left _ _)
    have h2 : max 0 (min 100 x) + 1 / 2 ≤ (201:ℚ)/2 := by linarith
    have h3 : ⌊(201:ℚ)/2⌋ = 100 := by
      rw [Int.floor_eq_iff]
      norm_num
    calc ⌊max 0 (min 100 x) + 1/2⌋ ≤ ⌊(201:ℚ)/2⌋ := Int.floor_le_floor h2
      _ = 100 := h3

theorem extractQuantityJs_total_on_strings_wit :
    extractQuantityJs (JsVal.str samplePackTitle) =
      Except.ok (extractQuantity samplePackTitle) ∧
    1 ≤ extractQuantity samplePackTitle ∧
    jsTruthy JsVal.null = false ∧
    extractQuantityJs JsVal.null = Except.ok 1 :=
  ⟨(extractQuantityJs_total_on_strings.1 samplePackTitle).1,
   (extractQuantityJs_total_on_strings.1 samplePackTitle).2,
   rfl,
   extractQuantityJs_total_on_strings.2 JsVal.null rfl⟩

theorem enrichProduct_reviewCount (p : Product) :
    (enrichProduct p).reviewCount = p.reviewCount := rfl

theorem maxReviewsOf_enriched (ps : List Product) :
    maxReviewsOf (enrichedOf ps) = maxReviewsP ps := by
  have h : ((fun p : ScoredProduct => p.reviewCount.getD 0) ∘ enrichProduct) =
      (fun p : Product => p.reviewCount.getD 0) := funext fun p => rfl
  simp [maxReviewsOf, maxReviewsP, enrichedOf, List.map_map, h]

theorem jsOrOne_max (rc : Option ℕ) :
    max (jsOrOne rc) 1 = max (rc.getD 0) 1 := by
  cases rc with
  | none => rfl
  | some n =>
    by_cases hn : n = 0
    · subst hn; rfl
    · simp [jsOrOne, hn]

theorem scoredList_breakdown_reviewCount (L : ℕ → ℚ) (ps : List Product)
    (s : Option (List (String × ℚ))) :
    ∀ q ∈ scoredList L ps s,
      q.breakdown.reviewCount =
        if 1 < maxReviewsP ps
        then L (max (q.reviewCount.getD 0) 1) / L (maxReviewsP ps) * 100
        else 50 := by
  intro q hq
  rw [scoredList] at hq
  rcases List.mem_map.mp hq with ⟨x, hx, rfl⟩
  rw [enrichedOf] at hx
  rcases List.mem_map.mp hx with ⟨prod, hprod, rfl⟩
  show (breakdownOf L (hasAIOf s) (sentiLookup s) (maxPriceOf (enrichedOf ps))
      (maxUnitPriceOf (enrichedOf ps)) (maxReviewsOf (enrichedOf ps))
      (enrichProduct prod)).reviewCount =
    if 1 < maxReviewsP ps
    then L (max ((enrichProduct prod).reviewCount.getD 0) 1) / L (maxReviewsP ps) * 100
    else 50
  simp only [breakdownOf, enrichProduct_reviewCount, maxReviewsOf_enriched, jsOrOne_max]

/-- C1: for every non-empty batch, `scoreProducts` preserves the length,
exactly one element of the result carries `isBestValue = true` (every
other is `false`), and the tagged element is the first-seen element of
maximal composite score: it is the head of the result, it belongs to the
scored batch, its score bounds every score, and scanning the scored batch
in input order finds it first among the elements of that score. -/
theorem scoreProducts_length_bestValue (L : ℕ → ℚ) (ps : List Product)
    (s : Option (List (String × ℚ))) (hne : ps ≠ []) :
    (scoreProducts L ps s).length = ps.length ∧
    (scoreProducts L ps s).countP (fun p => p.isBestValue) = 1 ∧
    ∃ b ∈ scoredList L ps s,
      (scoreProducts L ps s).head? = some (setBest b) ∧
      (∀ q ∈ scoredList L ps s, q.score ≤ b.score) ∧
      (scoredList L ps s).find? (fun p => p.score == b.score) = some b := by
  obtain ⟨p₀, ps', rfl⟩ := List.exists_cons_of_ne_nil hne
  have heq := scoreProducts_eq_tag_sort L p₀ ps' s
  have hlen : (scoredList L (p₀ :: ps') s).length = ps'.length + 1 := by
    rw [scoredList_length]; rfl
  cases hst : sortByScoreDesc (scoredList L (p₀ :: ps') s) with
  | nil =>
    exfalso
    have := (perm_sortByScoreDesc (scoredList L (p₀ :: ps') s)).length_eq
    rw [hst, hlen] at this
    exact absurd this.symm (by simp)
  | cons b t =>
    obtain ⟨hb, hmax, hfind⟩ := sort_head_spec _ b t hst
    have hperm := perm_sortByScoreDesc (scoredList L (p₀ :: ps') s)
    rw [hst] at hperm
    rw [heq, hst]
    refine ⟨?_, ?_, b, hb, rfl, hmax, hfind⟩
    · have h1 : (tagBest (b :: t)).length = (b :: t).length := rfl
      rw [h1, hperm.length_eq, hlen]
      rfl
    · have htf : ∀ q ∈ t, q.isBestValue = false := fun q hq =>
        scoredList_isBestValue_false L (p₀ :: ps') s q
          (hperm.mem_iff.mp (List.mem_cons_of_mem b hq))
      show List.countP _ (setBest b :: t) = 1
      rw [List.countP_cons]
      have hz : t.countP (fun p => p.isBestValue) = 0 :=
        List.countP_eq_zero.mpr (fun q hq => by simp [htf q hq])
      simp [hz, setBest]

/-- C2: every element of a `scoreProducts` result has an integer score
(the `score` field lives in `ℤ` because the source rounds it) lying in
the closed interval [0, 100], for every input batch, every sentiment map
(adversarial values included) and every model of the logarithm — the
clamp `Math.max(0, Math.min(100, s))` before rounding guarantees it and
no error is ever surfaced. -/
theorem scoreProducts_score_in_range (L : ℕ → ℚ) (ps : List Product)
    (s : Option (List (String × ℚ))) (p : ScoredProduct)
    (hp : p ∈ scoreProducts L ps s) :
    0 ≤ p.score ∧ p.score ≤ 100 := by
  cases ps with
  | nil => simp [scoreProducts] at hp
  | cons p₀ ps' =>
    rw [scoreProducts_eq_tag_sort] at hp
    obtain ⟨q, hq, hctag⟩ := mem_tagBest _ p hp
    have hscore : p.score = q.score := by
      have := congrArg ScoredProduct.score hctag
      simpa [clearTag] using this
    have hq' : q ∈ scoredList L (p₀ :: ps') s :=
      (perm_sortByScoreDesc _).mem_iff.mp hq
    obtain ⟨x, hx⟩ := scoredList_score_shape L _ s q hq'
    rw [hscore, hx]
    exact round_clamp_bounds x

/-- C7: the result of `scoreProducts` is sorted descending by score; the
sort is stable — for every score value, the elements of the result with
that score are exactly the elements of the scored batch with that score,
in their original input order (compared modulo the best-value tag) — and
the best-value tag therefore goes to the first-seen element of maximal
score: the head of the result is found first in the input-ordered scored
batch among the elements of its score. -/
theorem scoreProducts_sorted_stable (L : ℕ → ℚ) (ps : List Product)
    (s : Option (List (String × ℚ))) :
    List.Sorted scoreGE (scoreProducts L ps s) ∧
    (∀ c : ℤ,
      ((scoreProducts L ps s).filter (fun p => p.score == c)).map clearTag =
        ((scoredList L ps s).filter (fun p => p.score == c)).map clearTag) ∧
    ∀ b, (scoreProducts L ps s).head? = some b →
      (scoredList L ps s).find? (fun p => p.score == b.score) = some (clearTag b) := by
  cases ps with
  | nil =>
    refine ⟨by simp [scoreProducts], ?_, ?_⟩
    · intro c; rfl
    · intro b hb; simp [scoreProducts] at hb
  | cons p₀ ps' =>
    rw [scoreProducts_eq_tag_sort]
    cases hst : sortByScoreDesc (scoredList L (p₀ :: ps') s) with
    | nil =>
      refine ⟨by simp [tagBest], ?_, ?_⟩
      · intro c
        have hfil := filter_sortByScoreDesc c (scoredList L (p₀ :: ps') s)
        rw [hst] at hfil
        rw [show tagBest [] = [] from rfl, ← hfil]
      · intro b hb; simp [tagBest] at hb
    | cons b t =>
      obtain ⟨hb, hmax, hfind⟩ := sort_head_spec _ b t hst
      have hsorted := sorted_sortByScoreDesc (scoredList L (p₀ :: ps') s)
      rw [hst] at hsorted
      have hfil := fun c => filter_sortByScoreDesc c (scoredList L (p₀ :: ps') s)
      refine ⟨?_, ?_, ?_⟩
      · show List.Sorted scoreGE (setBest b :: t)
        rw [List.sorted_cons] at hsorted ⊢
        exact ⟨fun q hq => hsorted.1 q hq, hsorted.2⟩
      · intro c
        have h1 : ((tagBest (b :: t)).filter (fun p => p.score == c)).map clearTag =
            ((b :: t).filter (fun p => p.score == c)).map clearTag := by
          show ((setBest b :: t).filter _).map _ = _
          rw [List.filter_cons, List.filter_cons]
          by_cases hc : b.score = c
          · simp [setBest, clearTag, hc]
          · simp [setBest, clearTag, hc]
        rw [h1, ← hst, hfil c]
      · intro b' hb'
        have hbb : b' = setBest b := by
          have : some b' = some (setBest b) := hb'.symm
          exact (Option.some_injective _ this.symm).symm
        subst hbb
        have h1 : (setBest b).score = b.score := rfl
        have h2 : clearTag (setBest b) = b :=
          clearTag_eq_self (scoredList_isBestValue_false L (p₀ :: ps') s b hb)
        rw [h1, h2]
        exact hfind

/-- C8: every element of a `scoreProducts` result has the review-count
sub-score `L(max(reviewCount, 1)) / L(maxReviewCountInBatch) * 100` when
the batch maximum review count (absent counts read as 0, the maximum
floored at 1) exceeds 1, and the neutral 50 otherwise, where `L` is the
model of `Math.log`. -/
theorem reviewCount_subscore_formula (L : ℕ → ℚ) (ps : List Product)
    (s : Option (List (String × ℚ))) (p : ScoredProduct)
    (hp : p ∈ scoreProducts L ps s) :
    p.breakdown.reviewCount =
      if 1 < maxReviewsP ps
      then L (max (p.reviewCount.getD 0) 1) / L (maxReviewsP ps) * 100
      else 50 := by
  cases ps with
  | nil => simp [scoreProducts] at hp
  | cons p₀ ps' =>
    rw [scoreProducts_eq_tag_sort] at hp
    obtain ⟨q, hq, hctag⟩ := mem_tagBest _ p hp
    have hbd : p.breakdown = q.breakdown := by
      have := congrArg ScoredProduct.breakdown hctag
      simpa [clearTag] using this
    have hrc : p.reviewCount = q.reviewCount := by
      have := congrArg ScoredProduct.reviewCount hctag
      simpa [clearTag] using this
    have hq' : q ∈ scoredList L (p₀ :: ps') s :=
      (perm_sortByScoreDesc _).mem_iff.mp hq
    rw [hbd, hrc]
    exact scoredList_breakdown_reviewCount L _ s q hq'

/-! ### The summary sentinel leak (C10) -/

theorem substrOf_append_left {n b : List Char} (a : List Char)
    (h : substrOf n b) : substrOf n (a ++ b) := by
  obtain ⟨pre, post, rfl⟩ := h
  exact ⟨a ++ pre, post, by simp⟩

theorem substrOf_append_right {n b : List Char} (c : List Char)
    (h : substrOf n b) : substrOf n (b ++ c) := by
  obtain ⟨pre, post, rfl⟩ := h
  exact ⟨pre, post ++ c, by simp⟩

theorem data_append (a b : String) : (a ++ b).data = a.data ++ b.data :=
  rfl

theorem joinSpace_cons_head (b : String) (l : List String) :
    ∃ post, (joinSpace (b :: l)).data = b.data ++ post := by
  cases l with
  | nil => exact ⟨[], by simp [joinSpace]⟩
  | cons t r =>
    refine ⟨(" " ++ joinSpace (t :: r)).data, ?_⟩
    rw [joinSpace]
    rw [show b ++ " " ++ joinSpace (t :: r) = b ++ (" " ++ joinSpace (t :: r)) by
      rw [String.append_assoc]]
    exact data_append _ _

/-- C10: on any non-empty ranked list whose top entry has a quantity above
1 and the sentinel-infinite unit price, `generateFallbackSummary` still
returns normally (it is total), and the sentinel leaks into the output:
the returned string contains the text `$Infinity per unit`. -/
theorem fallbackSummary_infinity_leak (best : ScoredProduct)
    (rest : List ScoredProduct) (hq : 1 < best.quantity)
    (hu : best.unitPrice = none) :
    substrOf ("$Infinity per unit").data
      (generateFallbackSummary (best :: rest)).data := by
  show substrOf _ (joinSpace (summaryParts best rest)).data
  rw [summaryParts.eq_def, if_pos hq, hu]
  rw [List.singleton_append, List.cons_append]
  set p1 := "**" ++ best.title ++ "** is the top pick with a score of " ++
    toString best.score ++ "/100." with hp1
  set u := "At $" ++ toFixed2 none ++ " per unit (" ++
    toString best.quantity ++ "-pack), it offers strong value." with hu2
  set tailParts := (if best.breakdown.shipping = 100 then ["Ships free with Prime."] else [])
    ++ ratingPart best
    ++ (match rest with
        | [] => []
        | runner :: _ =>
          ["Runner-up: " ++ runner.title ++ " (" ++ toString runner.score ++ "/100)."])
    with htp
  have hfront : (("At $").data ++ (("Infinity").data ++ (" per unit (").data) : List Char) =
      ("At ").data ++ (("$Infinity per unit").data ++ (" (").data) := by decide
  have hsplitu : u.data =
      (("At $").data ++ (("Infinity").data ++ (" per unit (").data)) ++
        ((toString best.quantity).data ++ ("-pack), it offers strong value.").data) := by
    rw [hu2]
    simp [toFixed2, data_append, List.append_assoc]
  have h1 : substrOf ("$Infinity per unit").data u.data := by
    rw [hsplitu, hfront]
    apply substrOf_append_right
    refine ⟨("At ").data, (" (").data, ?_⟩
    simp [List.append_assoc]
  have h2 : substrOf ("$Infinity per unit").data (joinSpace (u :: tailParts)).data := by
    obtain ⟨post, hpost⟩ := joinSpace_cons_head u tailParts
    rw [hpost]
    exact substrOf_append_right post h1
  show substrOf _ (joinSpace (p1 :: u :: tailParts)).data
  rw [joinSpace, String.append_assoc, data_append, data_append]
  exact substrOf_append_left _ (substrOf_append_left _ h2)

/-! ### Concrete sample batch used by the witnesses -/

theorem sample_breakdown :
    breakdownOf zeroLog false (sentiLookup none) 1 1 1 (enrichProduct sampleProduct) =
      { unitPrice := 0, rating := 0, reviewCount := 50,
        shipping := 25, price := 0, reviewSentiment := 0 } := by
  rw [breakdownOf]
  norm_num [enrichProduct, sampleProduct, getShippingScore, calculateUnitPrice]

theorem sample_raw :
    rawScore (getWeights false)
      { unitPrice := 0, rating := 0, reviewCount := 50,
        shipping := 25, price := 0, reviewSentiment := (0:ℚ) } = 45/4 := by
  rw [rawScore, getWeights]
  norm_num [WEIGHTS_WITHOUT_AI]

theorem sample_round : round (max 0 (min 100 ((45:ℚ)/4))) = 11 := by
  rw [min_eq_right (by norm_num), max_eq_right (by norm_num), round_eq,
    show (45:ℚ)/4 + 1/2 = 47/4 by norm_num, Int.floor_eq_iff]
  norm_num

theorem sample_eval :
    scoreProducts zeroLog [sampleProduct] none = [sampleScored] := by
  show [setBest (scoreOne zeroLog (getWeights false) false (sentiLookup none)
      1 1 1 (enrichProduct sampleProduct))] = [sampleScored]
  rw [scoreOne, sample_breakdown, sample_raw, sample_round]
  rfl

theorem scoreProducts_length_bestValue_wit :
    ([sampleProduct] : List Product) ≠ [] ∧
    ((scoreProducts zeroLog [sampleProduct] none).length =
        ([sampleProduct] : List Product).length ∧
      (scoreProducts zeroLog [sampleProduct] none).countP (fun p => p.isBestValue) = 1 ∧
      ∃ b ∈ scoredList zeroLog [sampleProduct] none,
        (scoreProducts zeroLog [sampleProduct] none).head? = some (setBest b) ∧
        (∀ q ∈ scoredList zeroLog [sampleProduct] none, q.score ≤ b.score) ∧
        (scoredList zeroLog [sampleProduct] none).find?
          (fun p => p.score == b.score) = some b) :=
  ⟨by simp, scoreProducts_length_bestValue zeroLog [sampleProduct] none (by simp)⟩

theorem scoreProducts_score_in_range_wit :
    sampleScored ∈ scoreProducts zeroLog [sampleProduct] none ∧
    (0 ≤ sampleScored.score ∧ sampleScored.score ≤ 100) :=
  ⟨by rw [sample_eval]; exact List.mem_singleton.mpr rfl,
   scoreProducts_score_in_range zeroLog [sampleProduct] none sampleScored
    (by rw [sample_eval]; exact List.mem_singleton.mpr rfl)⟩

theorem scoreProducts_sorted_stable_wit :
    List.Sorted scoreGE (scoreProducts zeroLog [sampleProduct] none) ∧
    ((scoreProducts zeroLog [sampleProduct] none).filter
        (fun p => p.score == (11:ℤ))).map clearTag =
      ((scoredList zeroLog [sampleProduct] none).filter
        (fun p => p.score == (11:ℤ))).map clearTag ∧
    (scoreProducts zeroLog [sampleProduct] none).head? = some sampleScored ∧
    (scoredList zeroLog [sampleProduct] none).find?
      (fun p => p.score == sampleScored.score) = some (clearTag sampleScored) :=
  ⟨(scoreProducts_sorted_stable zeroLog [sampleProduct] none).1,
   (scoreProducts_sorted_stable zeroLog [sampleProduct] none).2.1 11,
   by rw [sample_eval]; rfl,
   (scoreProducts_sorted_stable zeroLog [sampleProduct] none).2.2 sampleScored
    (by rw [sample_eval]; rfl)⟩

theorem reviewCount_subscore_formula_wit :
    sampleScored ∈ scoreProducts zeroLog [sampleProduct] none ∧
    sampleScored.breakdown.reviewCount =
      (if 1 < maxReviewsP [sampleProduct]
       then zeroLog (max (sampleScored.reviewCount.getD 0) 1) /
              zeroLog (maxReviewsP [sampleProduct]) * 100
       else 50) :=
  ⟨by rw [sample_eval]; exact List.mem_singleton.mpr rfl,
   reviewCount_subscore_formula zeroLog [sampleProduct] none sampleScored
    (by rw [sample_eval]; exact List.mem_singleton.mpr rfl)⟩

theorem fallbackSummary_infinity_leak_wit :
    1 < sampleRanked.quantity ∧ sampleRanked.unitPrice = none ∧
    substrOf ("$Infinity per unit").data
      (generateFallbackSummary [sampleRanked]).data :=
  ⟨by decide, rfl, fallbackSummary_infinity_leak sampleRanked [] (by decide) rfl⟩

end AmazonOptimizer
